import Mathlib

/-!
Verification development for the FalaProduto RAG pipeline
(`api/app/rag/pipeline.py`, `api/app/retrieval/qdrant_store.py`,
`api/app/rerank/bge_reranker.py`, `api/app/config.py`).

Python strings are modelled as `List Char`; Python slices, `rfind`,
`strip`, `split` and `join` are modelled by the `py*` helpers below.
The potentially non-terminating `while` loop of `_split_text` is
modelled with an explicit fuel parameter: `none` means the loop has not
finished within the given fuel.  External capabilities (Qdrant client,
embedding model, cross-encoder, LLM) are modelled as function-valued
parameters; score floats are modelled as integers, since only their
ordering matters to the properties under study.
-/

namespace FalaProduto

/-- ASCII approximation of the whitespace class used by Python's
`str.strip` / `\s` (sufficient for all texts considered here). -/
def isPySpace (c : Char) : Bool :=
  c == ' ' || c == '\t' || c == '\n' || c == '\r' || c == '\x0b' || c == '\x0c'

/-- Python `str.strip()`: drop leading and trailing whitespace. -/
def pyStrip (l : List Char) : List Char :=
  ((l.dropWhile isPySpace).reverse.dropWhile isPySpace).reverse

/-- Decides whether `pat` is a prefix of `l`. -/
def isPrefixList : List Char → List Char → Bool
  | [], _ => true
  | _ :: _, [] => false
  | a :: as, b :: bs => a == b && isPrefixList as bs

/-- Python `pat in l` (substring containment). -/
def containsList (pat l : List Char) : Bool :=
  (List.range (l.length + 1)).any (fun i => isPrefixList pat (l.drop i))

/-- Python `str.split(sep)` for a one-character separator. -/
def splitOnChar (sep : Char) : List Char → List (List Char)
  | [] => [[]]
  | c :: r =>
    let rest := splitOnChar sep r
    if c == sep then [] :: rest
    else
      match rest with
      | h :: t => (c :: h) :: t
      | [] => [[c]]

/-- Python `sep.join(parts)`. -/
def joinSep (sep : List Char) : List (List Char) → List Char
  | [] => []
  | [x] => x
  | x :: r => x ++ sep ++ joinSep sep r

/-- Clamp a Python slice index (possibly negative) into `[0, n]`. -/
def clampIdx (n : Nat) (i : Int) : Nat :=
  if i < 0 then ((n : Int) + i).toNat else min i.toNat n

/-- Python slice `l[a:b]` with Python's negative-index and clamping
semantics. -/
def pySlice (l : List Char) (a b : Int) : List Char :=
  (l.take (clampIdx l.length b)).drop (clampIdx l.length a)

/-- Python `l.rfind(pat)`: greatest index at which `pat` occurs in `l`,
`-1` if it does not occur. -/
def pyRfind (l pat : List Char) : Int :=
  match ((List.range (l.length + 1)).filter
      (fun i => isPrefixList pat (l.drop i))).getLast? with
  | some i => (i : Int)
  | none => -1

/-! ### `config.py`: the settings used by the pipeline -/

/-- The `Settings` fields used by the RAG pipeline, with their defaults
from `api/app/config.py`. -/
structure Settings where
  top_k : Nat := 6
  rerank_top_k : Nat := 3
  chunk_size : Nat := 800
  chunk_overlap : Nat := 150
  max_context_chars : Nat := 12000
  max_query_length : Nat := 500
  blocked_terms : List Char :=
    ("segredo;credencial;senha;password;token;api_key;hack;inject").toList

/-- The default settings instance (`settings` in `config.py`). -/
def defaultSettings : Settings := {}

/-- Model of `Settings.get_blocked_terms_list`:
`[term.strip().lower() for term in self.blocked_terms.split(";") if term.strip()]`. -/
def get_blocked_terms_list (s : Settings) : List (List Char) :=
  ((splitOnChar ';' s.blocked_terms).filter
      (fun t => !(pyStrip t).isEmpty)).map
    (fun t => (pyStrip t).map Char.toLower)

/-! ### `RAGPipeline.sanitize_query`

The three non-literal injection regexes are compiled to explicit
matchers.  Each `\s+` is followed by a token that cannot match a space,
so maximal munch of the whitespace run is equivalent to the regex's
backtracking search. -/

/-- Consume a literal token, or fail. -/
def dropLit (pat l : List Char) : Option (List Char) :=
  if isPrefixList pat l then some (l.drop pat.length) else none

/-- Consume `\s+` (one or more whitespace characters, maximal munch). -/
def dropSpaces1 : List Char → Option (List Char)
  | [] => none
  | c :: r => if isPySpace c then some (r.dropWhile isPySpace) else none

/-- Word character `\w` (ASCII approximation). -/
def isWordChar (c : Char) : Bool := c.isAlphanum || c == '_'

/-- Matcher for `ignore\s+(previous|above|all)\s+instructions` anchored
at the head of the list. -/
def matchIgnoreAt (l : List Char) : Bool :=
  match dropLit (("ignore").toList) l with
  | some r1 =>
    match dropSpaces1 r1 with
    | some r2 =>
      [("previous").toList, ("above").toList, ("all").toList].any (fun w =>
        match dropLit w r2 with
        | some r3 =>
          match dropSpaces1 r3 with
          | some r4 => isPrefixList (("instructions").toList) r4
          | none => false
        | none => false)
    | none => false
  | none => false

/-- Matcher for `you\s+are\s+(now|a)\s+\w+` anchored at the head. -/
def matchYouAreAt (l : List Char) : Bool :=
  match dropLit (("you").toList) l with
  | some r1 =>
    match dropSpaces1 r1 with
    | some r2 =>
      match dropLit (("are").toList) r2 with
      | some r3 =>
        match dropSpaces1 r3 with
        | some r4 =>
          [("now").toList, ("a").toList].any (fun w =>
            match dropLit w r4 with
            | some r5 =>
              match dropSpaces1 r5 with
              | some r6 =>
                match r6 with
                | c :: _ => isWordChar c
                | [] => false
              | none => false
            | none => false)
        | none => false
      | none => false
    | none => false
  | none => false

/-- Matcher for `system\s*:\s*` anchored at the head (the trailing `\s*`
always matches). -/
def matchSystemColonAt (l : List Char) : Bool :=
  match dropLit (("system").toList) l with
  | some r1 =>
    match r1.dropWhile isPySpace with
    | ':' :: _ => true
    | _ => false
  | none => false

/-- Python `re.search`: does the matcher succeed at any position? -/
def reSearch (m : List Char → Bool) (l : List Char) : Bool :=
  (List.range (l.length + 1)).any (fun i => m (l.drop i))

/-- The five prompt-injection patterns of `sanitize_query`, applied to
the lower-cased query. -/
def containsInjection (ql : List Char) : Bool :=
  reSearch matchIgnoreAt ql ||
  reSearch matchYouAreAt ql ||
  reSearch matchSystemColonAt ql ||
  containsList (("<|im_start|>").toList) ql ||
  containsList (("<|endoftext|>").toList) ql

/-- Model of `RAGPipeline.sanitize_query`: truncate to `max_query_length`, then
reject if any blocked term occurs in the lower-cased query, then reject
if any injection pattern matches; otherwise the query is safe. -/
def sanitize_query (s : Settings) (query : List Char) : List Char × Bool :=
  let q := query.take s.max_query_length
  let ql := q.map Char.toLower
  if (get_blocked_terms_list s).any (fun t => containsList t ql) then (q, false)
  else if containsInjection ql then (q, false)
  else (q, true)

/-! ### `RAGPipeline._split_text`

```
if len(text) <= chunk_size: return [text]
chunks = []; start = 0
while start < len(text):
    end = start + chunk_size
    if end < len(text):
        last_period = text[max(start, end - 100):end].rfind(". ")
        if last_period != -1:
            end = max(start, end - 100) + last_period + 1
    chunks.append(text[start:end].strip())
    start = end - overlap
return chunks
```

The `while` loop is modelled with a fuel parameter; `none` means the
loop did not finish within `fuel` iterations.  `start` is an `Int`
because `end - overlap` can go negative in Python. -/

/-- One fueled run of the `while` loop of `_split_text`, beginning at
window position `start`. -/
def splitLoop (text : List Char) (chunk_size overlap : Nat) :
    Nat → Int → Option (List (List Char))
  | 0, _ => none
  | fuel + 1, start =>
    if start < (text.length : Int) then
      let end0 : Int := start + (chunk_size : Int)
      let e : Int :=
        if end0 < (text.length : Int) then
          let ws : Int := max start (end0 - 100)
          let lp := pyRfind (pySlice text ws end0) ((". ").toList)
          if lp = -1 then end0 else ws + lp + 1
        else end0
      (splitLoop text chunk_size overlap fuel (e - (overlap : Int))).map
        (fun rest => pyStrip (pySlice text start e) :: rest)
    else
      some []

/-- Model of `RAGPipeline._split_text`, fueled. -/
def split_text (text : List Char) (chunk_size overlap fuel : Nat) :
    Option (List (List Char)) :=
  if text.length ≤ chunk_size then some [text]
  else splitLoop text chunk_size overlap fuel 0

/-! ### `RAGPipeline.chunk_text_hierarchical`

Scans each page's text line by line, accumulating body lines; a heading
candidate (trimmed length < 80 and ends with `:`, or is upper-case, or
starts with `#`) flushes the accumulated text through the size-splitter
under the previous section label.  `chunk_index` is `len(all_chunks)` at
the moment of appending.  Field `section` of the Python dict is named
`sectionName` here because `section` is a Lean keyword. -/

/-- One extracted page-like unit (`{"text", "page", "title"}` dict). -/
structure PageData where
  text : List Char
  page : Nat
  title : List Char
deriving DecidableEq

/-- One chunk dict produced by `chunk_text_hierarchical`. -/
structure Chunk where
  text : List Char
  title : List Char
  sectionName : List Char
  page : Nat
  chunk_index : Nat
deriving DecidableEq

/-- Python `str.isupper()` (ASCII approximation): at least one cased
character and no lower-case character. -/
def pyIsUpper (l : List Char) : Bool :=
  l.any Char.isAlpha && l.all (fun c => !c.isLower)

/-- Heading-candidate test of `chunk_text_hierarchical` (line already
stripped): `len(line) < 80 and (line.endswith(":") or line.isupper()
or line.startswith("#"))`. -/
def isHeading (line : List Char) : Bool :=
  decide (line.length < 80) &&
    (line.getLast? == some ':' || pyIsUpper line || line.head? == some '#')

/-- Append the split results to the accumulated chunk list, giving each
new chunk `chunk_index = len(all_chunks)` at its moment of appending. -/
def withIndices (title sectionName : List Char) (page : Nat) :
    Nat → List (List Char) → List Chunk
  | _, [] => []
  | base, t :: r =>
    { text := t, title := title, sectionName := sectionName, page := page,
      chunk_index := base } :: withIndices title sectionName page (base + 1) r

/-- Model of `all_chunks.append(...)` for one flush of split chunks. -/
def appendChunks (acc : List Chunk) (texts : List (List Char))
    (title sectionName : List Char) (page : Nat) : List Chunk :=
  acc ++ withIndices title sectionName page acc.length texts

/-- The line loop of `chunk_text_hierarchical` for one page, carrying
the current section label, the accumulated body lines, and the chunk
list built so far (the trailing flush of `current_text` included). -/
def processLines (fuel chunk_size overlap : Nat) (title : List Char)
    (page : Nat) :
    List (List Char) → List Char → List (List Char) → List Chunk →
      Option (List Chunk)
  | [], sectionName, cur, acc =>
    if cur.isEmpty then some acc
    else
      match split_text (joinSep ([' ']) cur) chunk_size overlap fuel with
      | none => none
      | some cks => some (appendChunks acc cks title sectionName page)
  | l :: rest, sectionName, cur, acc =>
    let line := pyStrip l
    if line.isEmpty then
      processLines fuel chunk_size overlap title page rest sectionName cur acc
    else if isHeading line && !cur.isEmpty then
      match split_text (joinSep ([' ']) cur) chunk_size overlap fuel with
      | none => none
      | some cks =>
        processLines fuel chunk_size overlap title page rest line []
          (appendChunks acc cks title sectionName page)
    else
      processLines fuel chunk_size overlap title page rest sectionName
        (cur ++ [line]) acc

/-- The page loop of `chunk_text_hierarchical`: section label and body
accumulator restart empty on every page, the chunk list is carried. -/
def chunkPages (fuel chunk_size overlap : Nat) :
    List PageData → List Chunk → Option (List Chunk)
  | [], acc => some acc
  | p :: rest, acc =>
    match processLines fuel chunk_size overlap p.title p.page
        (splitOnChar '\n' p.text) [] [] acc with
    | none => none
    | some acc2 => chunkPages fuel chunk_size overlap rest acc2

/-- Model of `RAGPipeline.chunk_text_hierarchical` (fueled through the splitter):
starts from an empty `all_chunks`. -/
def chunk_text_hierarchical (fuel chunk_size overlap : Nat)
    (pages : List PageData) : Option (List Chunk) :=
  chunkPages fuel chunk_size overlap pages []

/-- The chunk-accumulation core of `RAGPipeline.ingest_documents`
(lines 300-317): for each file's extracted pages, call
`chunk_text_hierarchical` afresh and extend the batch list. -/
def ingestChunks (fuel chunk_size overlap : Nat)
    (files : List (List PageData)) : Option (List Chunk) :=
  files.foldl
    (fun acc pages =>
      acc.bind (fun l =>
        (chunk_text_hierarchical fuel chunk_size overlap pages).map
          (fun cks => l ++ cks)))
    (some [])

/-! ### `QdrantStore` (`api/app/retrieval/qdrant_store.py`)

The Qdrant client is an external collaborator, modelled as a function
from (vector, limit, optional filter) to scored points.  Python dict
values appearing in the filter map are modelled by `PyVal`
(`None` or a string), with Python truthiness. -/

/-- A Python value usable in the `filters` dict. -/
inductive PyVal where
  | vnone
  | vstr (s : List Char)
deriving DecidableEq

/-- Python truthiness of a `PyVal` (`None` and `""` are falsy). -/
def pyTruthy : PyVal → Bool
  | .vnone => false
  | .vstr s => !s.isEmpty

/-- The string carried by a `PyVal` (`""` for `None`). -/
def pyValStr : PyVal → List Char
  | .vnone => []
  | .vstr s => s

/-- A Python dict with string keys, as an association list (keys are
unique in a Python dict; lookup takes the first match). -/
abbrev PyDict := List (List Char × PyVal)

/-- Python `d[k]` / `k in d` combined: `some v` iff key `k` is present
with value `v`. -/
def dict_get (d : PyDict) (k : List Char) : Option PyVal :=
  (d.find? (fun kv => kv.1 == k)).map (fun kv => kv.2)

/-- A Qdrant `FieldCondition(key=..., match=MatchValue(value=...))`. -/
structure FieldCondition where
  key : List Char
  matchValue : List Char
deriving DecidableEq

/-- A point returned by the Qdrant client's `search`, with the payload
fields written by `upsert_documents`. -/
structure ScoredPoint where
  id : Nat
  score : Int
  text : List Char
  doc_id : List Char
  title : List Char
  sectionName : List Char
  page : Nat
  source_path : List Char
deriving DecidableEq

/-- A formatted search result dict (later enriched by the reranker with
`rerank_score`); absent keys are `none`. -/
structure RetrievedDoc where
  id : Nat
  text : List Char
  score : Option Int
  doc_id : List Char
  title : List Char
  sectionName : List Char
  page : Nat
  source_path : List Char
  rerank_score : Option Int
deriving DecidableEq

/-- The filter-construction prelude of `QdrantStore.search`: recognized
keys `product` (matched against `title`) and `doc_id`, each only when
present and truthy; an empty or falsy `filters` dict, or an empty
condition list, yields no filter at all. -/
def build_search_filter : Option PyDict → Option (List FieldCondition)
  | Option.none => Option.none
  | Option.some d =>
    if d.isEmpty then Option.none
    else
      let conds :=
        (match dict_get d (("product").toList) with
         | Option.some v =>
           if pyTruthy v then [⟨("title").toList, pyValStr v⟩] else []
         | Option.none => []) ++
        (match dict_get d (("doc_id").toList) with
         | Option.some v =>
           if pyTruthy v then [⟨("doc_id").toList, pyValStr v⟩] else []
         | Option.none => [])
      if conds.isEmpty then Option.none else Option.some conds

/-- Model of `QdrantStore.search`: build the optional filter, query the client,
and format each result from its payload. -/
def vector_search
    (client : List Int → Nat → Option (List FieldCondition) → List ScoredPoint)
    (query_vector : List Int) (top_k : Nat) (filters : Option PyDict) :
    List RetrievedDoc :=
  (client query_vector top_k (build_search_filter filters)).map (fun r =>
    { id := r.id, text := r.text, score := Option.some r.score,
      doc_id := r.doc_id, title := r.title, sectionName := r.sectionName,
      page := r.page, source_path := r.source_path,
      rerank_score := Option.none })

/-- A metadata dict passed to `upsert_documents` (`chunk_index` may be
absent: `metadata.get("chunk_index", i)` falls back to the position). -/
structure UpsertMeta where
  doc_id : List Char
  title : List Char
  sectionName : List Char
  page : Nat
  source_path : List Char
  chunk_index : Option Nat
deriving DecidableEq

/-- A Qdrant point assembled by `upsert_documents` (the random UUID id
is omitted: it plays no role in any property below). -/
structure QPoint where
  vector : List Int
  text : List Char
  doc_id : List Char
  title : List Char
  sectionName : List Char
  page : Nat
  source_path : List Char
  chunk_index : Nat
deriving DecidableEq

/-- The `zip`-driven point-building loop of `upsert_documents`
(stops at the shortest input, like Python's `zip`). -/
def buildPoints : Nat → List (List Char) → List (List Int) →
    List UpsertMeta → List QPoint
  | i, t :: ts, e :: es, m :: ms =>
    { vector := e, text := t, doc_id := m.doc_id, title := m.title,
      sectionName := m.sectionName, page := m.page,
      source_path := m.source_path, chunk_index := m.chunk_index.getD i } ::
      buildPoints (i + 1) ts es ms
  | _, _, _, _ => []

/-- Model of `QdrantStore.upsert_documents`: empty input short-circuits to `0`;
then unequal lengths raise `ValueError`; otherwise the batch is
upserted and its size returned (the client call is modelled as always
succeeding: its own failures are re-raised unchanged). -/
def upsert_documents (texts : List (List Char)) (embeddings : List (List Int))
    (metadatas : List UpsertMeta) : Except (List Char) Nat :=
  if texts.isEmpty || embeddings.isEmpty || metadatas.isEmpty then
    Except.ok 0
  else if !(texts.length == embeddings.length &&
      embeddings.length == metadatas.length) then
    Except.error (("texts, embeddings, and metadatas must have same length").toList)
  else
    Except.ok (buildPoints 0 texts embeddings metadatas).length

/-! ### `BGEReranker.rerank` (`api/app/rerank/bge_reranker.py`)

The cross-encoder is modelled as a total scoring function
(query, passage text) → score.  Python's `sorted(..., key=...,
reverse=True)` is the stable descending sort by key; a stable sort's
output is uniquely determined, so the insertion sort below is an exact
model of it. -/

/-- The sort key `x["rerank_score"]` (always assigned before sorting). -/
def sortKey (p : RetrievedDoc) : Int := p.rerank_score.getD 0

/-- Insert an element into a descending-by-key list of elements that
came later in the original order: skip only strictly greater keys, so
the inserted element lands before every equal-key element (stability). -/
def insertDesc {α : Type} (key : α → Int) (a : α) : List α → List α
  | [] => [a]
  | b :: t => if key b > key a then b :: insertDesc key a t else a :: b :: t

/-- Stable descending sort by key (the semantics of Python's
`sorted(..., key=..., reverse=True)`). -/
def sortDesc {α : Type} (key : α → Int) : List α → List α
  | [] => []
  | a :: r => insertDesc key a (sortDesc key r)

/-- Model of `BGEReranker.rerank`: empty input short-circuits; a single passage
gets score `1.0` without invoking the model; otherwise score all
passages, sort stably descending, and truncate to `top_k` when `top_k`
is truthy (Python `if top_k:`; `0` models both `None` and `0`). -/
def rerank (scoreFn : List Char → List Char → Int) (query : List Char)
    (passages : List RetrievedDoc) (top_k : Nat) : List RetrievedDoc :=
  match passages with
  | [] => []
  | [p] => [{ p with rerank_score := Option.some 1 }]
  | _ =>
    let scored := passages.map (fun p =>
      { p with rerank_score := Option.some (scoreFn query p.text) })
    let reranked := sortDesc sortKey scored
    if top_k ≠ 0 then reranked.take top_k else reranked

/-! ### Citations, context and prompt assembly -/

/-- One citation dict (`_extract_citations`). -/
structure Citation where
  doc_id : List Char
  title : List Char
  sectionName : List Char
  page : Nat
  score : Int
  excerpt : List Char
deriving DecidableEq

/-- The citation built from one retrieved document:
`score = doc.get("rerank_score", doc.get("score", 0.0))`, excerpt is the
text truncated to 200 characters plus an ellipsis. -/
def mkCitation (d : RetrievedDoc) : Citation :=
  { doc_id := d.doc_id, title := d.title, sectionName := d.sectionName,
    page := d.page, score := d.rerank_score.getD (d.score.getD 0),
    excerpt := d.text.take 200 ++ ("...").toList }

/-- The dedup loop of `_extract_citations`, carrying the `seen` set of
`(title, page)` keys. -/
def citationsGo (seen : List (List Char × Nat)) :
    List RetrievedDoc → List Citation
  | [] => []
  | d :: rest =>
    if (d.title, d.page) ∈ seen then citationsGo seen rest
    else mkCitation d :: citationsGo ((d.title, d.page) :: seen) rest

/-- Model of `RAGPipeline._extract_citations`: dedup by `(title, page)` keeping
first occurrences, then keep at most the first 3. -/
def extract_citations (docs : List RetrievedDoc) : List Citation :=
  (citationsGo [] docs).take 3

/-- Modelled from the spec: "deduplicate retained passages by
(title, page) pair in rank order", keeping the first occurrence of each
pair — the reference dedup against which `extract_citations` is
compared. -/
def firstOccurrences (seen : List (List Char × Nat)) :
    List RetrievedDoc → List RetrievedDoc
  | [] => []
  | d :: rest =>
    if (d.title, d.page) ∈ seen then firstOccurrences seen rest
    else d :: firstOccurrences ((d.title, d.page) :: seen) rest

/-- Decimal rendering of a number, for the f-string headers. -/
def natToChars (n : Nat) : List Char := (toString n).toList

/-- The labeled source header of `_build_context` for source number `i`. -/
def contextHeader (i : Nat) (d : RetrievedDoc) : List Char :=
  ("\n--- Fonte ").toList ++ natToChars i ++ (": ").toList ++ d.title ++
    (" (Página ").toList ++ natToChars d.page ++ (")").toList ++
    (if !d.sectionName.isEmpty then (" - ").toList ++ d.sectionName else []) ++
    (" ---\n").toList

/-- The enumerated source blocks of `_build_context` (1-based). -/
def contextParts (i : Nat) : List RetrievedDoc → List (List Char)
  | [] => []
  | d :: r => (contextHeader i d ++ d.text) :: contextParts (i + 1) r

/-- Model of `RAGPipeline._build_context`: join the blocks with newlines and
hard-truncate past `max_context_chars`, appending a marker. -/
def build_context (s : Settings) (docs : List RetrievedDoc) : List Char :=
  let context := joinSep (['\n']) (contextParts 1 docs)
  if s.max_context_chars < context.length then
    context.take s.max_context_chars ++ ("\n\n[... contexto truncado ...]").toList
  else context

/-- Model of `RAGPipeline._get_system_prompt` (fixed string). -/
def system_prompt : List Char :=
  ("És um assistente especializado em produtos de seguro. \n\nRegras importantes:\n1. Responde APENAS com base nas fontes fornecidas no contexto\n2. Se a pergunta estiver fora do âmbito de produtos de seguro, indica que não sabes\n3. Inclui SEMPRE citações das fontes (título e página)\n4. Evita linguagem especulativa ou inventar informação\n5. Se não encontrares resposta no contexto, diz claramente que não tens essa informação\n\nFormato da resposta:\n## Resposta\n[Tua resposta aqui]\n\n## Fontes\n• [Título do documento] (p. [número])\n• [Título do documento] (p. [número])\n").toList

/-- Model of `RAGPipeline._build_prompt` (fixed template). -/
def build_prompt (query context : List Char) : List Char :=
  ("Com base no seguinte contexto de documentos de produtos de seguro, responde à pergunta do utilizador.\n\nCONTEXTO:\n").toList ++
    context ++ ("\n\nPERGUNTA: ").toList ++ query ++
    ("\n\nResponde de forma clara e estruturada, citando sempre as fontes.").toList

/-! ### `RAGPipeline.retrieve_and_generate` -/

/-- The fixed refusal answer substituted for blocked queries. -/
def blockedAnswer : List Char :=
  ("Desculpe, a sua pergunta contém conteúdo bloqueado. Por favor, reformule a pergunta.").toList

/-- The fixed answer returned when the search yields no results. -/
def noResultsAnswer : List Char :=
  ("Não encontrei informação relevante na base de conhecimento para responder à sua pergunta. Por favor, tente reformular ou fazer uma pergunta sobre produtos de seguro.").toList

/-- The `usage` record of a `retrieve_and_generate` result: exactly the
keys present in each of the three return branches. -/
inductive Usage where
  | blockedContent
  | retrievalOnly (retrieval_time_ms : Nat) (num_retrieved : Nat)
  | full (total_latency_ms retrieval_time_ms rerank_time_ms llm_time_ms
      tokens_prompt tokens_completion : Nat) (model : List Char)
      (num_retrieved num_reranked : Nat)
deriving DecidableEq

/-- The result dict of `retrieve_and_generate`. -/
structure RagResult where
  answer : List Char
  citations : List Citation
  usage : Usage
  status : List Char
deriving DecidableEq

/-- The response dict of the LLM provider's `generate`. -/
structure LlmResponse where
  answer : List Char
  model : List Char
  tokens_prompt : Nat
  tokens_completion : Nat
deriving DecidableEq

/-- The external-capability calls issued while answering one query, in
order of issue. -/
inductive Effect where
  | embed
  | search
  | rerank
  | generate
deriving DecidableEq

/-- The external collaborators of the pipeline and the wall-clock
readings, bundled: the Qdrant client, the embedding provider, the
cross-encoder scoring function, the LLM provider, and the elapsed-time
values observed by the timers. -/
structure Env where
  client : List Int → Nat → Option (List FieldCondition) → List ScoredPoint
  embedQuery : List Char → List Int
  scoreFn : List Char → List Char → Int
  generate : List Char → List Char → LlmResponse
  retrievalTimeMs : Nat
  rerankTimeMs : Nat
  llmTimeMs : Nat
  totalTimeMs : Nat

/-- Python `top_k or settings.top_k` (`None` and `0` are falsy). -/
def effTopK (s : Settings) (top_k : Option Nat) : Nat :=
  match top_k with
  | Option.some k => if k = 0 then s.top_k else k
  | Option.none => s.top_k

/-- Model of `RAGPipeline.retrieve_and_generate`, returning the result dict
together with the list of external calls issued (the Python
`if not is_safe: return ...` early return is the `else` branch here). -/
def retrieve_and_generate (env : Env) (s : Settings) (query : List Char)
    (top_k : Option Nat) (filters : Option PyDict) :
    RagResult × List Effect :=
  let tk := effTopK s top_k
  let q := (sanitize_query s query).1
  if (sanitize_query s query).2 then
    let emb := env.embedQuery q
    let retrieved := vector_search env.client emb tk filters
    if retrieved.isEmpty then
      ({ answer := noResultsAnswer, citations := [],
         usage := Usage.retrievalOnly env.retrievalTimeMs 0,
         status := ("no_results").toList },
       [Effect.embed, Effect.search])
    else
      let reranked := rerank env.scoreFn q retrieved s.rerank_top_k
      let context := build_context s reranked
      let prompt := build_prompt q context
      let resp := env.generate prompt system_prompt
      ({ answer := resp.answer, citations := extract_citations reranked,
         usage := Usage.full env.totalTimeMs env.retrievalTimeMs
           env.rerankTimeMs env.llmTimeMs resp.tokens_prompt
           resp.tokens_completion resp.model retrieved.length reranked.length,
         status := ("success").toList },
       [Effect.embed, Effect.search, Effect.rerank, Effect.generate])
  else
    ({ answer := blockedAnswer, citations := [],
       usage := Usage.blockedContent, status := ("blocked").toList },
     [])

/-! ## Theorems -/

/-- C1: the size-splitter does NOT satisfy the claimed termination
guarantee.  At `text = "ab"`, `chunk_size = 1`, `overlap = 1` the
window start is recomputed as `end - overlap = 1 - 1 = 0` on every
iteration, so no amount of fuel finishes the loop: the guard against
non-positive advancement demanded by the spec is absent from the code. -/
theorem c1_split_text_diverges :
    ∀ fuel : Nat, split_text (("ab").toList) 1 1 fuel = none := by
  have h : ∀ f : Nat, splitLoop (("ab").toList) 1 1 f 0 = none := by
    intro f
    induction f with
    | zero => rfl
    | succ f ih =>
      have step : splitLoop (("ab").toList) 1 1 (f + 1) 0 =
          (splitLoop (("ab").toList) 1 1 f 0).map
            (fun rest => (("a").toList) :: rest) := rfl
      rw [step, ih]
      rfl
  intro fuel
  exact h fuel

/-- C3: a query classified unsafe short-circuits: the result is the
fixed refusal answer with empty citations and status `blocked`, and no
external call (embedding, search, reranking, generation) is issued. -/
theorem c3_blocked_short_circuit (env : Env) (s : Settings)
    (query : List Char) (top_k : Option Nat) (filters : Option PyDict)
    (h : (sanitize_query s query).2 = false) :
    retrieve_and_generate env s query top_k filters =
      ({ answer := blockedAnswer, citations := [],
         usage := Usage.blockedContent, status := ("blocked").toList },
       ([] : List Effect)) := by
  simp [retrieve_and_generate, h]

/-- Witness for C3 at the unsafe query "Qual é a senha?" ("senha" is a
blocked term) with a concrete environment. -/
theorem c3_witness :
    retrieve_and_generate
      { client := fun _ _ _ => [], embedQuery := fun _ => [],
        scoreFn := fun _ _ => 0,
        generate := fun _ _ => ⟨[], [], 0, 0⟩,
        retrievalTimeMs := 0, rerankTimeMs := 0, llmTimeMs := 0,
        totalTimeMs := 0 }
      defaultSettings (("Qual é a senha?").toList) Option.none Option.none =
      ({ answer := blockedAnswer, citations := [],
         usage := Usage.blockedContent, status := ("blocked").toList },
       ([] : List Effect)) :=
  c3_blocked_short_circuit _ _ _ _ _ (by decide)

/-- C5: a safe query whose vector search returns zero results yields
the fixed "no relevant information" answer, empty citations, status
`no_results`, a usage record holding only the retrieval timing and
`num_retrieved = 0`, and no reranking or generation call is issued. -/
theorem c5_no_results_short_circuit (env : Env) (s : Settings)
    (query : List Char) (top_k : Option Nat) (filters : Option PyDict)
    (hsafe : (sanitize_query s query).2 = true)
    (hempty : vector_search env.client
        (env.embedQuery (sanitize_query s query).1)
        (effTopK s top_k) filters = []) :
    retrieve_and_generate env s query top_k filters =
      ({ answer := noResultsAnswer, citations := [],
         usage := Usage.retrievalOnly env.retrievalTimeMs 0,
         status := ("no_results").toList },
       [Effect.embed, Effect.search]) := by
  simp [retrieve_and_generate, hsafe, hempty]

/-- Witness for C5: a safe query against a store that returns nothing. -/
theorem c5_witness :
    retrieve_and_generate
      { client := fun _ _ _ => [], embedQuery := fun _ => [],
        scoreFn := fun _ _ => 0,
        generate := fun _ _ => ⟨[], [], 0, 0⟩,
        retrievalTimeMs := 7, rerankTimeMs := 0, llmTimeMs := 0,
        totalTimeMs := 0 }
      defaultSettings (("hello").toList) Option.none Option.none =
      ({ answer := noResultsAnswer, citations := [],
         usage := Usage.retrievalOnly 7 0,
         status := ("no_results").toList },
       [Effect.embed, Effect.search]) :=
  c5_no_results_short_circuit _ _ _ _ _ (by decide) rfl

set_option maxRecDepth 100000 in
set_option maxHeartbeats 2000000 in
/-- C4 counterexample: the claim quantifies over occurrences of
"password" at ANY position, but `sanitize_query` truncates to
`max_query_length = 500` characters first; a query of 500 `'a'`s
followed by "password" contains the blocked term yet is classified
safe. -/
theorem c4_counterexample :
    containsList (("password").toList)
        ((List.replicate 500 'a' ++ ("password").toList).map Char.toLower) =
      true ∧
    (sanitize_query defaultSettings
        (List.replicate 500 'a' ++ ("password").toList)).2 = true := by
  constructor
  · decide
  · decide

/-- C4 (amended): if "password" occurs (case-insensitively) within the
first `max_query_length` characters of the query, `sanitize_query`
returns `is_safe = False`; and the query "What is covered under the
auto policy?" is classified safe under the default configuration. -/
theorem c4_password_blocked :
    (∀ query : List Char,
      containsList (("password").toList)
          ((query.take defaultSettings.max_query_length).map Char.toLower) =
        true →
      (sanitize_query defaultSettings query).2 = false) ∧
    (sanitize_query defaultSettings
        (("What is covered under the auto policy?").toList)).2 = true := by
  constructor
  · intro query h
    have hmem : (("password").toList) ∈ get_blocked_terms_list defaultSettings := by
      decide
    have hany : (get_blocked_terms_list defaultSettings).any
        (fun t => containsList t
          ((query.take defaultSettings.max_query_length).map Char.toLower)) =
        true :=
      List.any_eq_true.mpr ⟨_, hmem, h⟩
    simp only [sanitize_query]
    rw [hany]
    simp
  · decide

/-- Witness for C4 (amended) at a query carrying "PASSWORD" inside the
truncation window. -/
theorem c4_witness :
    (sanitize_query defaultSettings
        (("Tell me the PASSWORD now").toList)).2 = false :=
  c4_password_blocked.1 _ (by decide)

/-- C8 counterexample: with `texts = []` the three lists have unequal
lengths `(0, 1, 1)`, yet `upsert_documents` returns `0` instead of
raising: the emptiness short-circuit precedes the length check. -/
theorem c8_counterexample :
    ([] : List (List Char)).length ≠ ([[(0 : Int)]]).length ∧
    upsert_documents [] [[(0 : Int)]]
      [{ doc_id := [], title := [], sectionName := [], page := 0,
         source_path := [], chunk_index := Option.none }] = Except.ok 0 := by
  constructor
  · decide
  · rfl

/-- C8 (amended): when all three lists are non-empty, unequal lengths
raise a `ValueError` and equal lengths upsert and return the common
length (the emptiness short-circuit returns `0` before any check). -/
theorem c8_upsert_length_check (texts : List (List Char))
    (embeddings : List (List Int)) (metadatas : List UpsertMeta)
    (ht : texts ≠ []) (he : embeddings ≠ []) (hm : metadatas ≠ []) :
    (texts.length = embeddings.length → embeddings.length = metadatas.length →
      upsert_documents texts embeddings metadatas = Except.ok texts.length) ∧
    (¬(texts.length = embeddings.length ∧
        embeddings.length = metadatas.length) →
      upsert_documents texts embeddings metadatas =
        Except.error
          (("texts, embeddings, and metadatas must have same length").toList)) := by
  have hbp : ∀ (i : Nat) (ts : List (List Char)) (es : List (List Int))
      (ms : List UpsertMeta), ts.length = es.length →
      es.length = ms.length → (buildPoints i ts es ms).length = ts.length := by
    intro i ts
    induction ts generalizing i with
    | nil => intro es ms _ _; cases es <;> cases ms <;> rfl
    | cons t ts ih =>
      intro es ms h1 h2
      cases es with
      | nil => simp at h1
      | cons e es =>
        cases ms with
        | nil => simp at h2
        | cons m ms =>
          simp only [buildPoints, List.length_cons]
          simp only [List.length_cons] at h1 h2
          rw [ih (i + 1) es ms (by omega) (by omega)]
  constructor
  · intro h1 h2
    unfold upsert_documents
    rw [if_neg, if_neg]
    · rw [hbp 0 texts embeddings metadatas h1 h2]
    · simp [h1, h2]
    · simp [List.isEmpty_iff, ht, he, hm]
  · intro hne
    unfold upsert_documents
    rw [if_neg, if_pos]
    · simp only [Bool.not_eq_true', Bool.and_eq_false_iff]
      rcases Decidable.em (texts.length = embeddings.length) with h1 | h1
      · right
        simp only [beq_eq_false_iff_ne, ne_eq]
        intro h2
        exact hne ⟨h1, h2⟩
      · left
        simp [beq_eq_false_iff_ne, h1]
    · simp [List.isEmpty_iff, ht, he, hm]

/-- Witness for C8 (amended), success branch, at equal-length
singleton inputs. -/
theorem c8_witness :
    upsert_documents [("a").toList] [[(0 : Int)]]
      [{ doc_id := ("d").toList, title := ("t").toList, sectionName := [],
         page := 1, source_path := [], chunk_index := Option.some 0 }] =
      Except.ok 1 :=
  (c8_upsert_length_check _ _ _ (by decide) (by decide) (by decide)).1
    rfl rfl

/-- C10: a filters dict whose recognized keys (`product`, `doc_id`) are
absent or map to falsy values builds no Qdrant filter at all, and the
search result is exactly that of a search with filters omitted. -/
theorem c10_falsy_filters_ignored (d : PyDict)
    (hp : (dict_get d (("product").toList)).all (fun v => !pyTruthy v) = true)
    (hd : (dict_get d (("doc_id").toList)).all (fun v => !pyTruthy v) = true) :
    build_search_filter (Option.some d) = Option.none ∧
    ∀ (client : List Int → Nat → Option (List FieldCondition) →
        List ScoredPoint) (qv : List Int) (k : Nat),
      vector_search client qv k (Option.some d) =
        vector_search client qv k Option.none := by
  have hb : build_search_filter (Option.some d) = Option.none := by
    unfold build_search_filter
    by_cases hde : d.isEmpty
    · simp [hde]
    · simp only [hde, Bool.false_eq_true, if_false]
      cases hpv : dict_get d (("product").toList) with
      | none =>
        cases hdv : dict_get d (("doc_id").toList) with
        | none => simp
        | some v =>
          rw [hdv] at hd
          simp_all [Option.all]
      | some v =>
        rw [hpv] at hp
        cases hdv : dict_get d (("doc_id").toList) with
        | none => simp_all [Option.all]
        | some w =>
          rw [hdv] at hd
          simp_all [Option.all]
  refine ⟨hb, ?_⟩
  intro client qv k
  unfold vector_search
  rw [hb]
  rfl

lemma withIndices_map_idx (title sectionName : List Char) (page : Nat) :
    ∀ (ts : List (List Char)) (base : Nat),
      (withIndices title sectionName page base ts).map (fun c => c.chunk_index) =
        List.range' base ts.length := by
  intro ts
  induction ts with
  | nil => intro base; rfl
  | cons t r ih =>
    intro base
    simp only [withIndices, List.map_cons, List.length_cons, ih (base + 1),
      List.range'_succ]

lemma withIndices_length (title sectionName : List Char) (page : Nat) :
    ∀ (ts : List (List Char)) (base : Nat),
      (withIndices title sectionName page base ts).length = ts.length := by
  intro ts
  induction ts with
  | nil => intro base; rfl
  | cons t r ih => intro base; simp [withIndices, ih (base + 1)]

lemma appendChunks_length (acc : List Chunk) (ts : List (List Char))
    (title sectionName : List Char) (page : Nat) :
    (appendChunks acc ts title sectionName page).length =
      acc.length + ts.length := by
  simp [appendChunks, withIndices_length]

lemma appendChunks_map_idx (acc : List Chunk) (ts : List (List Char))
    (title sectionName : List Char) (page : Nat)
    (h : acc.map (fun c => c.chunk_index) = List.range acc.length) :
    (appendChunks acc ts title sectionName page).map (fun c => c.chunk_index) =
      List.range (acc.length + ts.length) := by
  unfold appendChunks
  rw [List.map_append, h, withIndices_map_idx, List.range_eq_range',
    List.range_eq_range']
  have h2 := List.range'_append 0 acc.length ts.length 1
  simp only [Nat.zero_add, Nat.one_mul] at h2
  rw [Nat.add_comm acc.length ts.length]
  exact h2

lemma processLines_idx (fuel cs ov : Nat) (title : List Char) (page : Nat) :
    ∀ (lines : List (List Char)) (sectionName : List Char)
      (cur : List (List Char)) (acc out : List Chunk),
      acc.map (fun c => c.chunk_index) = List.range acc.length →
      processLines fuel cs ov title page lines sectionName cur acc = some out →
      out.map (fun c => c.chunk_index) = List.range out.length := by
  intro lines
  induction lines with
  | nil =>
    intro sectionName cur acc out hacc hpr
    simp only [processLines] at hpr
    split at hpr
    · injection hpr with h
      subst h
      exact hacc
    · split at hpr
      · exact Option.noConfusion hpr
      · injection hpr with h
        subst h
        rw [appendChunks_length]
        exact appendChunks_map_idx _ _ _ _ _ hacc
  | cons l rest ih =>
    intro sectionName cur acc out hacc hpr
    simp only [processLines] at hpr
    split at hpr
    · exact ih _ _ _ _ hacc hpr
    · split at hpr
      · split at hpr
        · exact Option.noConfusion hpr
        · refine ih _ _ _ _ ?_ hpr
          rw [appendChunks_length]
          exact appendChunks_map_idx _ _ _ _ _ hacc
      · exact ih _ _ _ _ hacc hpr

lemma chunkPages_idx (fuel cs ov : Nat) :
    ∀ (pages : List PageData) (acc out : List Chunk),
      acc.map (fun c => c.chunk_index) = List.range acc.length →
      chunkPages fuel cs ov pages acc = some out →
      out.map (fun c => c.chunk_index) = List.range out.length := by
  intro pages
  induction pages with
  | nil =>
    intro acc out hacc hpr
    simp only [chunkPages] at hpr
    injection hpr with h
    subst h
    exact hacc
  | cons p rest ih =>
    intro acc out hacc hpr
    simp only [chunkPages] at hpr
    rcases hpl : processLines fuel cs ov p.title p.page
        (splitOnChar '\n' p.text) [] [] acc with _ | acc2
    · rw [hpl] at hpr
      exact Option.noConfusion hpr
    · rw [hpl] at hpr
      exact ih acc2 out
        (processLines_idx fuel cs ov p.title p.page _ _ _ acc acc2 hacc hpl)
        hpr

/-- C2 counterexample: `chunk_text_hierarchical` is called afresh for
each file inside `ingest_documents`, so its internal counter restarts:
a two-file batch (one chunk each) yields chunk_index values `[0, 0]`,
which are neither unique nor dense over the batch. -/
theorem c2_counterexample :
    (ingestChunks 1 800 150
        [[{ text := ("a").toList, page := 1, title := ("doc1").toList }],
         [{ text := ("b").toList, page := 1, title := ("doc2").toList }]]).map
      (List.map (fun c => c.chunk_index)) = Option.some [0, 0] ∧
    ([(0 : Nat), 0]) ≠ List.range 2 := by
  constructor
  · decide
  · decide

/-- C2 (amended): within one `chunk_text_hierarchical` call (one file),
the chunk_index values form the dense running counter `0, 1, 2, ...`
over all pages of that call; the counter restarts at 0 for every file
of an ingest batch. -/
theorem c2_chunk_index_dense_per_call (fuel chunk_size overlap : Nat)
    (pages : List PageData) (cks : List Chunk)
    (h : chunk_text_hierarchical fuel chunk_size overlap pages = some cks) :
    cks.map (fun c => c.chunk_index) = List.range cks.length :=
  chunkPages_idx fuel chunk_size overlap pages [] cks rfl h

/-- Witness for C2 (amended) at a one-page file producing one chunk. -/
theorem c2_witness :
    ([{ text := ("a").toList, title := ("t").toList, sectionName := [],
        page := 1, chunk_index := 0 }] : List Chunk).map
        (fun c => c.chunk_index) = List.range 1 :=
  c2_chunk_index_dense_per_call 1 800 150
    [{ text := ("a").toList, page := 1, title := ("t").toList }] _ (by decide)

/-- Witness for C10 at a dict holding only the unrecognized key
`region`. -/
theorem c10_witness :
    build_search_filter
      (Option.some [((("region").toList), PyVal.vstr (("EU").toList))]) =
      Option.none :=
  (c10_falsy_filters_ignored _ (by decide) (by decide)).1

lemma citationsGo_eq_map :
    ∀ (docs : List RetrievedDoc) (seen : List (List Char × Nat)),
      citationsGo seen docs = (firstOccurrences seen docs).map mkCitation := by
  intro docs
  induction docs with
  | nil => intro seen; rfl
  | cons d rest ih =>
    intro seen
    by_cases hk : (d.title, d.page) ∈ seen
    · simp [citationsGo, firstOccurrences, hk, ih]
    · simp [citationsGo, firstOccurrences, hk, ih]

lemma firstOccurrences_subset :
    ∀ (docs : List RetrievedDoc) (seen : List (List Char × Nat))
      (d : RetrievedDoc), d ∈ firstOccurrences seen docs → d ∈ docs := by
  intro docs
  induction docs with
  | nil => intro seen d h; simp [firstOccurrences] at h
  | cons x rest ih =>
    intro seen d h
    by_cases hk : (x.title, x.page) ∈ seen
    · simp only [firstOccurrences, hk, if_true] at h
      exact List.mem_cons_of_mem x (ih seen d h)
    · simp only [firstOccurrences, hk, if_false] at h
      rcases List.mem_cons.mp h with rfl | h
      · exact List.mem_cons_self d rest
      · exact List.mem_cons_of_mem x (ih _ d h)

lemma firstOccurrences_pairwise :
    ∀ (docs : List RetrievedDoc) (seen : List (List Char × Nat)),
      (∀ x ∈ firstOccurrences seen docs, (x.title, x.page) ∉ seen) ∧
      (firstOccurrences seen docs).Pairwise
        (fun a b => (a.title, a.page) ≠ (b.title, b.page)) := by
  intro docs
  induction docs with
  | nil => intro seen; constructor <;> simp [firstOccurrences]
  | cons d rest ih =>
    intro seen
    by_cases hk : (d.title, d.page) ∈ seen
    · simpa [firstOccurrences, hk] using ih seen
    · have ih2 := ih ((d.title, d.page) :: seen)
      simp only [firstOccurrences, hk, if_false]
      constructor
      · intro x hx
        rcases List.mem_cons.mp hx with rfl | hx
        · exact hk
        · intro hmem
          exact ih2.1 x hx (List.mem_cons_of_mem _ hmem)
      · refine List.Pairwise.cons ?_ ih2.2
        intro x hx
        have := ih2.1 x hx
        intro heq
        exact this (heq ▸ List.mem_cons_self _ _)

/-- C9: the extracted citation list has at most 3 entries, has no two
entries sharing a `(title, page)` pair, equals the rank-ordered
first-occurrence dedup truncated to 3 and mapped to citations, and each
entry is built from a retrieved passage with excerpt = the passage text
truncated to 200 characters plus an ellipsis. -/
theorem c9_citation_properties (docs : List RetrievedDoc) :
    (extract_citations docs).length ≤ 3 ∧
    (extract_citations docs).Pairwise
      (fun a b => (a.title, a.page) ≠ (b.title, b.page)) ∧
    extract_citations docs =
      ((firstOccurrences [] docs).take 3).map mkCitation ∧
    ∀ c ∈ extract_citations docs, ∃ d ∈ docs,
      c = mkCitation d ∧ c.excerpt = d.text.take 200 ++ ("...").toList := by
  have he : extract_citations docs =
      ((firstOccurrences [] docs).take 3).map mkCitation := by
    unfold extract_citations
    rw [citationsGo_eq_map, ← List.map_take]
  refine ⟨?_, ?_, he, ?_⟩
  · unfold extract_citations
    exact List.length_take_le 3 _
  · rw [he]
    have hp := (firstOccurrences_pairwise docs []).2
    have hp2 := List.Pairwise.sublist (List.take_sublist 3 _) hp
    exact List.Pairwise.map mkCitation (fun a b h => h) hp2
  · intro c hc
    rw [he] at hc
    rcases List.mem_map.mp hc with ⟨d, hd, rfl⟩
    have hd2 : d ∈ firstOccurrences [] docs := List.mem_of_mem_take hd
    exact ⟨d, firstOccurrences_subset docs [] d hd2, rfl, rfl⟩

lemma mem_insertDesc {α : Type} (key : α → Int) (a x : α) :
    ∀ l : List α, x ∈ insertDesc key a l ↔ x = a ∨ x ∈ l := by
  intro l
  induction l with
  | nil => simp [insertDesc]
  | cons b t ih =>
    by_cases hgt : key b > key a
    · rw [show insertDesc key a (b :: t) = b :: insertDesc key a t from by
        simp [insertDesc, hgt]]
      simp only [List.mem_cons, ih]
      tauto
    · rw [show insertDesc key a (b :: t) = a :: b :: t from by
        simp [insertDesc, hgt]]
      simp only [List.mem_cons]

lemma pairwise_insertDesc {α : Type} (key : α → Int) (a : α) :
    ∀ l : List α, l.Pairwise (fun x y => key y ≤ key x) →
      (insertDesc key a l).Pairwise (fun x y => key y ≤ key x) := by
  intro l
  induction l with
  | nil => intro _; simp [insertDesc]
  | cons b t ih =>
    intro hp
    rcases List.pairwise_cons.mp hp with ⟨hp1, hp2⟩
    by_cases hgt : key b > key a
    · rw [show insertDesc key a (b :: t) = b :: insertDesc key a t from by
        simp [insertDesc, hgt]]
      refine List.Pairwise.cons ?_ (ih hp2)
      intro y hy
      rcases (mem_insertDesc key a y t).mp hy with rfl | hy
      · omega
      · exact hp1 y hy
    · rw [show insertDesc key a (b :: t) = a :: b :: t from by
        simp [insertDesc, hgt]]
      refine List.Pairwise.cons ?_ hp
      intro y hy
      rcases List.mem_cons.mp hy with rfl | hy
      · omega
      · have := hp1 y hy
        omega

lemma sortDesc_pairwise {α : Type} (key : α → Int) :
    ∀ l : List α, (sortDesc key l).Pairwise (fun x y => key y ≤ key x) := by
  intro l
  induction l with
  | nil => simp [sortDesc]
  | cons a r ih => exact pairwise_insertDesc key a _ ih

lemma filter_insertDesc {α : Type} (key : α → Int) (s : Int) (a : α) :
    ∀ l : List α,
      (insertDesc key a l).filter (fun x => key x == s) =
        (a :: l).filter (fun x => key x == s) := by
  intro l
  induction l with
  | nil => rfl
  | cons b t ih =>
    by_cases hgt : key b > key a
    · have hred : insertDesc key a (b :: t) = b :: insertDesc key a t := by
        simp [insertDesc, hgt]
      rw [hred]
      by_cases has : key a = s
      · have hbs : (key b == s) = false := by
          simp only [beq_eq_false_iff_ne, ne_eq]
          omega
        simp [List.filter_cons, hbs, has, ih]
      · have has2 : (key a == s) = false := by
          simp only [beq_eq_false_iff_ne, ne_eq]
          omega
        simp [List.filter_cons, has2, ih]
    · have hred : insertDesc key a (b :: t) = a :: b :: t := by
        simp [insertDesc, hgt]
      rw [hred]

lemma filter_sortDesc {α : Type} (key : α → Int) (s : Int) :
    ∀ l : List α,
      (sortDesc key l).filter (fun x => key x == s) =
        l.filter (fun x => key x == s) := by
  intro l
  induction l with
  | nil => rfl
  | cons a r ih =>
    have h := filter_insertDesc key s a (sortDesc key r)
    simp only [sortDesc, h, List.filter_cons, ih]

/-- C6: on a non-empty passage list with positive `top_k`, the reranked
list has at most `top_k` entries and is sorted in non-increasing order
of rerank score; and (when the scoring path runs, i.e. at least two
passages) for every score value the retained passages with that score
are a prefix of the scored input's passages with that score — i.e. ties
keep their original retrieval order (stable sort). -/
theorem c6_rerank_sorted_stable (scoreFn : List Char → List Char → Int)
    (query : List Char) (passages : List RetrievedDoc) (top_k : Nat)
    (hne : passages ≠ []) (htk : 0 < top_k) :
    (rerank scoreFn query passages top_k).length ≤ top_k ∧
    (rerank scoreFn query passages top_k).Pairwise
      (fun a b => sortKey b ≤ sortKey a) ∧
    (2 ≤ passages.length → ∀ s : Int, ∃ rest,
      (rerank scoreFn query passages top_k).filter (fun p => sortKey p == s)
          ++ rest =
        (passages.map (fun p =>
            { p with rerank_score := Option.some (scoreFn query p.text) })).filter
          (fun p => sortKey p == s)) := by
  rcases passages with _ | ⟨p1, _ | ⟨p2, tl⟩⟩
  · exact absurd rfl hne
  · refine ⟨?_, ?_, ?_⟩
    · simpa [rerank] using htk
    · simp [rerank]
    · intro h2
      simp at h2
  · have hred : rerank scoreFn query (p1 :: p2 :: tl) top_k =
        (sortDesc sortKey ((p1 :: p2 :: tl).map (fun p =>
          { p with rerank_score := Option.some (scoreFn query p.text) }))).take
          top_k := by
      simp only [rerank]
      rw [if_pos (by omega : top_k ≠ 0)]
    refine ⟨?_, ?_, ?_⟩
    · rw [hred]
      exact List.length_take_le _ _
    · rw [hred]
      exact List.Pairwise.sublist (List.take_sublist _ _)
        (sortDesc_pairwise sortKey _)
    · intro _ s
      refine ⟨(List.drop top_k (sortDesc sortKey
        ((p1 :: p2 :: tl).map (fun p =>
          { p with rerank_score := Option.some (scoreFn query p.text) })))).filter
          (fun p => sortKey p == s), ?_⟩
      rw [hred, ← List.filter_append, List.take_append_drop, filter_sortDesc]

/-- Witness for C6 with three passages (two of them tied in score). -/
theorem c6_witness :
    (rerank (fun _ t => (t.length : Int)) (("q").toList)
        [{ id := 1, text := ("aa").toList, score := Option.some 9,
           doc_id := [], title := [], sectionName := [], page := 1,
           source_path := [], rerank_score := Option.none },
         { id := 2, text := ("bb").toList, score := Option.some 8,
           doc_id := [], title := [], sectionName := [], page := 2,
           source_path := [], rerank_score := Option.none },
         { id := 3, text := ("c").toList, score := Option.some 7,
           doc_id := [], title := [], sectionName := [], page := 3,
           source_path := [], rerank_score := Option.none }] 3).length ≤ 3 :=
  (c6_rerank_sorted_stable _ _ _ _ (by decide) (by decide)).1

lemma pySlice_natCast (l : List Char) (s e : Nat) :
    pySlice l (s : Int) (e : Int) = (l.take e).drop s := by
  unfold pySlice clampIdx
  rw [if_neg (by omega : ¬((e : Int) < 0)), if_neg (by omega : ¬((s : Int) < 0))]
  simp only [Int.toNat_natCast]
  have ht : l.take (min e l.length) = l.take e := by
    by_cases he : e ≤ l.length
    · rw [Nat.min_eq_left he]
    · rw [Nat.min_eq_right (by omega), List.take_length,
        List.take_of_length_le (by omega)]
  rw [ht]
  by_cases hs2 : s ≤ l.length
  · rw [Nat.min_eq_left hs2]
  · rw [Nat.min_eq_right (by omega)]
    rw [List.drop_eq_nil_of_le (by rw [List.length_take]; omega),
      List.drop_eq_nil_of_le (by rw [List.length_take]; omega)]

lemma pySlice_subset (l : List Char) (a b : Int) (c : Char)
    (h : c ∈ pySlice l a b) : c ∈ l := by
  unfold pySlice at h
  exact List.mem_of_mem_take (List.mem_of_mem_drop h)

lemma prefix_dot_space_mem (x : List Char)
    (h : isPrefixList ((". ").toList) x = true) : ' ' ∈ x := by
  rcases x with _ | ⟨c1, _ | ⟨c2, rest⟩⟩
  · exact absurd h (by decide)
  · have hpat : ((". ").toList) = ['.', ' '] := rfl
    rw [hpat] at h
    simp [isPrefixList] at h
  · have hpat : ((". ").toList) = ['.', ' '] := rfl
    rw [hpat] at h
    simp only [isPrefixList, Bool.and_eq_true, beq_iff_eq] at h
    rcases h with ⟨h1, h2, h3⟩
    rw [← h2]
    simp

lemma pyRfind_no_ws (w : List Char)
    (h : ∀ c ∈ w, isPySpace c = false) :
    pyRfind w ((". ").toList) = -1 := by
  have hfilter : ((List.range (w.length + 1)).filter
      (fun i => isPrefixList ((". ").toList) (w.drop i))) = [] := by
    refine List.filter_eq_nil_iff.mpr ?_
    intro i _
    intro hpre
    have hsp : ' ' ∈ w :=
      List.mem_of_mem_drop (prefix_dot_space_mem _ hpre)
    have := h ' ' hsp
    simp [isPySpace] at this
  unfold pyRfind
  rw [hfilter]
  rfl

lemma dropWhile_no_sat (p : Char → Bool) (l : List Char)
    (h : ∀ c ∈ l, p c = false) : l.dropWhile p = l := by
  cases l with
  | nil => rfl
  | cons c t => simp [List.dropWhile_cons, h c (List.mem_cons_self c t)]

lemma pyStrip_no_ws (l : List Char)
    (h : ∀ c ∈ l, isPySpace c = false) : pyStrip l = l := by
  unfold pyStrip
  rw [dropWhile_no_sat _ _ h,
    dropWhile_no_sat _ _ (fun c hc => h c (List.mem_reverse.mp hc)),
    List.reverse_reverse]

/-- For whitespace-free text (hence no possible `". "` occurrence in
any window), one loop iteration advances the window start by exactly
`chunk_size` before the overlap is subtracted. -/
lemma splitLoop_step_no_ws (text : List Char) (cs ov fuel : Nat) (s : Int)
    (hs : s < (text.length : Int))
    (hws : ∀ c ∈ text, isPySpace c = false) :
    splitLoop text cs ov (fuel + 1) s =
      (splitLoop text cs ov fuel (s + (cs : Int) - (ov : Int))).map
        (fun rest => pyStrip (pySlice text s (s + (cs : Int))) :: rest) := by
  simp only [splitLoop]
  rw [if_pos hs]
  by_cases hend : s + (cs : Int) < (text.length : Int)
  · rw [if_pos hend]
    have hlp : pyRfind
        (pySlice text (max s (s + (cs : Int) - 100)) (s + (cs : Int)))
        ((". ").toList) = -1 :=
      pyRfind_no_ws _ (fun c hc => hws c (pySlice_subset _ _ _ c hc))
    rw [hlp]
    simp
  · rw [if_neg hend]

lemma splitLoop_no_ws (text : List Char) (cs ov : Nat)
    (hws : ∀ c ∈ text, isPySpace c = false) (hov : ov < cs) :
    ∀ (f s : Nat), text.length ≤ s + f * (cs - ov) →
      ∃ cks, splitLoop text cs ov (f + 1) (s : Int) = some cks ∧
        (cks.map (List.take (cs - ov))).flatten = text.drop s := by
  intro f
  induction f with
  | zero =>
    intro s hle
    simp only [Nat.zero_mul, Nat.add_zero] at hle
    refine ⟨[], ?_, ?_⟩
    · simp only [splitLoop]
      rw [if_neg (by omega)]
    · rw [List.drop_eq_nil_of_le hle]
      rfl
  | succ f ih =>
    intro s hle
    by_cases hs : s < text.length
    · have hstep := splitLoop_step_no_ws text cs ov (f + 1) (s : Int)
        (by omega) hws
      have harg : (s : Int) + (cs : Int) - (ov : Int) =
          ((s + (cs - ov) : Nat) : Int) := by
        push_cast [Nat.cast_sub (le_of_lt hov)]
        ring
      have hle2 : text.length ≤ (s + (cs - ov)) + f * (cs - ov) := by
        have h1 : (f + 1) * (cs - ov) = f * (cs - ov) + (cs - ov) :=
          Nat.succ_mul f (cs - ov)
        linarith [hle]
      obtain ⟨cks, hck, hjoin⟩ := ih (s + (cs - ov)) hle2
      have hchunk : pyStrip (pySlice text (s : Int) ((s : Int) + (cs : Int))) =
          (text.take (s + cs)).drop s := by
        have hcast : (s : Int) + (cs : Int) = ((s + cs : Nat) : Int) := by
          push_cast
          ring
        rw [hcast, pySlice_natCast]
        exact pyStrip_no_ws _ (fun c hc =>
          hws c (List.mem_of_mem_take (List.mem_of_mem_drop hc)))
      refine ⟨(text.take (s + cs)).drop s :: cks, ?_, ?_⟩
      · rw [hstep, harg, hck, hchunk]
        rfl
      · have hd : cs - ov ≤ cs := Nat.sub_le cs ov
        have h1 : List.take (cs - ov) ((text.take (s + cs)).drop s) =
            List.take (cs - ov) (text.drop s) := by
          rw [List.drop_take]
          rw [show s + cs - s = cs by omega]
          rw [List.take_take, Nat.min_eq_left hd]
        rw [List.map_cons, List.flatten_cons, h1, hjoin, ← List.drop_drop,
          List.take_append_drop]
    · refine ⟨[], ?_, ?_⟩
      · simp only [splitLoop]
        rw [if_neg (by omega)]
      · rw [List.drop_eq_nil_of_le (by omega)]
        rfl

/-- C7 counterexample: at `text = "ab cd"`, `chunk_size = 3`,
`overlap = 1` the splitter returns `["ab", "cd", "d"]` (per-chunk
`strip` removed boundary whitespace), and concatenating the first
`chunk_size − overlap = 2` characters of each chunk gives `"abcdd"`,
not the original text. -/
theorem c7_counterexample :
    (split_text (("ab cd").toList) 3 1 10).map
        (fun cks => (cks.map (List.take 2)).flatten) =
      some (("abcdd").toList) ∧
    (("abcdd").toList) ≠ (("ab cd").toList) := by
  constructor
  · decide
  · decide

/-- C7 (amended): for whitespace-free text (so neither the `". "`
sentence-boundary adjustment nor the per-chunk `strip` can fire) longer
than `chunk_size`, with `overlap < chunk_size`, concatenating the first
`chunk_size − overlap` characters of every chunk reconstructs the
original text; and any text of length at most `chunk_size` yields
exactly one chunk equal to the input, for any fuel. -/
theorem c7_split_roundtrip (text : List Char) (cs ov : Nat)
    (hov : ov < cs) (hws : ∀ c ∈ text, isPySpace c = false) :
    (cs < text.length →
      ∃ cks, split_text text cs ov (text.length + 1) = some cks ∧
        (cks.map (List.take (cs - ov))).flatten = text) ∧
    (∀ (t : List Char) (fuel : Nat), t.length ≤ cs →
      split_text t cs ov fuel = some [t]) := by
  constructor
  · intro hlen
    have hfuel : text.length ≤ 0 + text.length * (cs - ov) := by
      have hd : 1 ≤ cs - ov := by omega
      have := Nat.mul_le_mul_left text.length hd
      simpa using this
    obtain ⟨cks, hck, hjoin⟩ :=
      splitLoop_no_ws text cs ov hws hov text.length 0 hfuel
    refine ⟨cks, ?_, by simpa using hjoin⟩
    unfold split_text
    rw [if_neg (by omega)]
    simpa using hck
  · intro t fuel hle
    unfold split_text
    rw [if_pos hle]

/-- Witness for C7 (amended) at `text = "abcdef"`, `chunk_size = 5`,
`overlap = 3`. -/
theorem c7_witness :
    (5 < (("abcdef").toList).length →
      ∃ cks, split_text (("abcdef").toList) 5 3
          ((("abcdef").toList).length + 1) = some cks ∧
        (cks.map (List.take (5 - 3))).flatten = (("abcdef").toList)) ∧
    (∀ (t : List Char) (fuel : Nat), t.length ≤ 5 →
      split_text t 5 3 fuel = some [t]) :=
  c7_split_roundtrip (("abcdef").toList) 5 3 (by decide) (by decide)

end FalaProduto
